import Mathlib

/-!
Verification of the d6g-dlt-federation blockchain-manager core.

Shallow embedding of `dockerfiles/blockchain-manager/app/blockchain_interface.py`,
`demo.py` and `main.py`.  Pure functions become Lean functions; the mutable
local-nonce counter becomes explicit state passing; fallible calls (web3 RPC,
signing, broadcasting) become `Except`-valued oracles supplied by an
environment record.  Machine integers are modelled as `Nat` (Ethereum nonces,
gas prices and contract enum values are non-negative and far below any
overflow boundary relevant here).
-/

/-- Fields of a transaction dict as built by `buildTransaction` and mutated by
`send_signed_transaction`.  `none` models absence of the key in the Python
dict.  The remaining payload (to, data, value, ...) is irrelevant to the
claims and collapsed into `payload`. -/
structure TxFields where
  gasPrice : Option Nat
  maxFeePerGas : Option Nat
  maxPriorityFeePerGas : Option Nat
  nonce : Option Nat
  payload : String
deriving Repr, DecidableEq

/-- Python `int(x * 1.25)` on a non-negative integer gas value: exact
multiplication by 5/4 followed by truncation, i.e. `5 * x / 4` in `Nat`
(the float round-trip is exact for every gas value below 2^51, far above
realistic gas prices). -/
def bumpFee (x : Nat) : Nat := 5 * x / 4

/-- Environment for one `send_signed_transaction` call: the outcome of the
`web3.eth.gas_price` fetch and of the sign-plus-`sendRawTransaction` step
(`.ok h` returns the tx hash `h`, `.error e` models a raised exception). -/
structure SendEnv where
  gasPriceResult : Except String Nat
  broadcast : TxFields → Except String String

/-- The fee-escalation step of `send_signed_transaction`
(blockchain_interface.py lines 63-71), applied after the nonce was assigned:
if neither `maxFeePerGas` nor `maxPriorityFeePerGas` is present, fetch the
base gas price and set `gasPrice` to `int(base * 1.25)`; otherwise, if
`maxFeePerGas` is present, replace it with `int(cap * 1.25)`. -/
def applyFeePolicy (env : SendEnv) (tx : TxFields) : Except String TxFields :=
  if tx.maxFeePerGas = none ∧ tx.maxPriorityFeePerGas = none then
    match env.gasPriceResult with
    | Except.error e => Except.error e
    | Except.ok base => Except.ok { tx with gasPrice := some (bumpFee base) }
  else if tx.maxFeePerGas.isSome then
    Except.ok { tx with maxFeePerGas := tx.maxFeePerGas.map bumpFee }
  else
    Except.ok tx

/-- Embedding of `send_signed_transaction` (blockchain_interface.py lines 58-76).
Input: the current value of `self._local_nonce`; output: the new counter
value, the nonce assigned to this transaction, and the result of
sign-and-broadcast.  The `with self._nonce_lock` critical section covers
exactly the read-assign-increment; everything after it may fail, and no
failure path restores the counter. -/
def send_signed_transaction (env : SendEnv) (localNonce : Nat) (tx : TxFields) :
    Nat × Nat × Except String String :=
  let assigned := localNonce
  let nonce1 := localNonce + 1
  let txWithNonce := { tx with nonce := some assigned }
  let result :=
    match applyFeePolicy env txWithNonce with
    | Except.error e => Except.error e
    | Except.ok txFinal => env.broadcast txFinal
  (nonce1, assigned, result)

/-- Run a sequence of `send_signed_transaction` calls in their serialization
order (the nonce lock serializes the read-assign-increment sections, so any
concurrent execution is equivalent to some such sequence).  Returns the list
of assigned nonces in assignment order, paired with each call's result, and
the final counter. -/
def runSendCalls (base : Nat) : List (SendEnv × TxFields) → List (Nat × Except String String) × Nat
  | [] => ([], base)
  | (env, tx) :: rest =>
    let (nonce1, assigned, result) := send_signed_transaction env base tx
    let (tail, final) := runSendCalls nonce1 rest
    ((assigned, result) :: tail, final)

/-- The assigned-nonce trace of `runSendCalls`. -/
def assignedNonces (base : Nat) (calls : List (SendEnv × TxFields)) : List Nat :=
  ((runSendCalls base calls).1).map Prod.fst

/-- A flat-fee transaction dict (no EIP-1559 keys), as produced by
`buildTransaction({'from': ...})` for e.g. `addOperator`. -/
def txFlat : TxFields :=
  { gasPrice := none, maxFeePerGas := none, maxPriorityFeePerGas := none,
    nonce := none, payload := "addOperator" }

/-- A cap-based (EIP-1559) transaction dict carrying a caller-specified
`maxFeePerGas` of 2000. -/
def txCap : TxFields :=
  { gasPrice := none, maxFeePerGas := some 2000, maxPriorityFeePerGas := none,
    nonce := none, payload := "placeBid" }

/-- An environment where the gas-price fetch returns 100 and broadcasting
succeeds with a fixed hash. -/
def okEnv : SendEnv :=
  { gasPriceResult := Except.ok 100, broadcast := fun _ => Except.ok "0xabc" }

/-- An environment where the gas-price fetch itself raises, so the whole
`send_signed_transaction` call fails after the nonce was already consumed. -/
def failEnv : SendEnv :=
  { gasPriceResult := Except.error "gas price fetch failed",
    broadcast := fun _ => Except.error "unreachable" }

theorem runSendCalls_fst_length (base : Nat) (calls : List (SendEnv × TxFields)) :
    (runSendCalls base calls).1.length = calls.length := by
  induction calls generalizing base with
  | nil => rfl
  | cons c rest ih =>
    simp only [runSendCalls, send_signed_transaction, List.length_cons]
    rw [ih]

theorem assignedNonces_eq_range (base : Nat) (calls : List (SendEnv × TxFields)) :
    assignedNonces base calls = (List.range calls.length).map (base + ·) := by
  induction calls generalizing base with
  | nil => rfl
  | cons c rest ih =>
    simp only [assignedNonces, runSendCalls, send_signed_transaction, List.map_cons,
      List.length_cons, List.range_succ_eq_map, List.map_map]
    refine congrArg₂ List.cons (by omega) ?_
    have h := ih (base + 1)
    simp only [assignedNonces] at h
    rw [h]
    apply List.map_congr_left
    intro i _
    simp [Function.comp]
    omega

/-- C1: for every sequence of N `send_signed_transaction` calls from one
identity (concurrent calls are serialized by the nonce lock, so every
execution is one such sequence), the nonces assigned in assignment order are
exactly base, base+1, ..., base+N-1: equal to that arithmetic progression,
pairwise strictly increasing, and covering exactly the interval
[base, base+N) with no gaps. -/
theorem nonce_sequence_exact (base : Nat) (calls : List (SendEnv × TxFields)) :
    assignedNonces base calls = (List.range calls.length).map (base + ·) ∧
    List.Pairwise (· < ·) (assignedNonces base calls) ∧
    (∀ n, n ∈ assignedNonces base calls ↔ base ≤ n ∧ n < base + calls.length) := by
  refine ⟨assignedNonces_eq_range base calls, ?_, ?_⟩
  · rw [assignedNonces_eq_range]
    exact List.pairwise_map.mpr ((List.pairwise_lt_range calls.length).imp (fun h => by omega))
  · intro n
    rw [assignedNonces_eq_range]
    simp only [List.mem_map, List.mem_range]
    constructor
    · rintro ⟨i, hi, rfl⟩; omega
    · intro h; exact ⟨n - base, by omega, by omega⟩

/-- Witness for C1: two calls starting from counter 5 (the first one failing)
are assigned nonces [5, 6]. -/
theorem nonce_sequence_exact_witness :
    assignedNonces 5 [(failEnv, txFlat), (okEnv, txFlat)] = [5, 6] := by
  have h := (nonce_sequence_exact 5 [(failEnv, txFlat), (okEnv, txFlat)]).1
  rw [h]; rfl

/-- C9: `send_signed_transaction` increments the local nonce counter inside
the critical section, before the fallible fee lookup, signing and broadcast;
no failure path restores it.  Hence the counter is `base + 1` and the
assigned nonce is `base` whatever the outcome (in particular when the call
errors), and every nonce assigned by any later sequence of calls from the
incremented counter is strictly larger than the consumed one — a failed
submission leaves a permanent gap, never a reuse. -/
theorem nonce_consumed_on_failure (env : SendEnv) (base : Nat) (tx : TxFields) :
    (send_signed_transaction env base tx).1 = base + 1 ∧
    (send_signed_transaction env base tx).2.1 = base ∧
    (∀ e, (send_signed_transaction env base tx).2.2 = Except.error e →
      (send_signed_transaction env base tx).1 = base + 1) ∧
    (∀ later : List (SendEnv × TxFields), ∀ n,
      n ∈ assignedNonces (send_signed_transaction env base tx).1 later → base < n) := by
  refine ⟨rfl, rfl, fun _ _ => rfl, ?_⟩
  intro later n hn
  have h := ((nonce_sequence_exact (base + 1) later).2.2 n).mp hn
  omega

/-- Witness for C9: with a failing gas-price fetch, the call from counter 7
errors, yet the counter moves to 8 and a subsequent call is assigned nonce
8 > 7. -/
theorem nonce_consumed_on_failure_witness :
    (send_signed_transaction failEnv 7 txFlat).2.2 =
      Except.error "gas price fetch failed" ∧
    8 ∈ assignedNonces (send_signed_transaction failEnv 7 txFlat).1 [(okEnv, txFlat)] ∧
    7 < 8 :=
  ⟨rfl, by decide,
    (nonce_consumed_on_failure failEnv 7 txFlat).2.2.2 [(okEnv, txFlat)] 8 (by decide)⟩

/-- C3: before signing, `send_signed_transaction` escalates fees: a flat-fee
transaction (neither EIP-1559 key present) gets `gasPrice` set to the current
base fee times the fixed factor 1.25 (Python `int(base * 1.25)`, embedded as
`bumpFee`); a cap-based transaction (`maxFeePerGas` present) gets the
caller-specified cap multiplied by the same factor; the factor strictly
exceeds 1 (`g < bumpFee g` whenever `4 ≤ g`); and the transaction handed to
sign-and-broadcast is exactly the fee-escalated one. -/
theorem fee_escalation_before_signing (env : SendEnv) (base g cap : Nat) (tx : TxFields) :
    (tx.maxFeePerGas = none → tx.maxPriorityFeePerGas = none →
      env.gasPriceResult = Except.ok g →
      applyFeePolicy env { tx with nonce := some base } =
        Except.ok { tx with nonce := some base, gasPrice := some (bumpFee g) }) ∧
    (tx.maxFeePerGas = some cap →
      applyFeePolicy env { tx with nonce := some base } =
        Except.ok { tx with nonce := some base, maxFeePerGas := some (bumpFee cap) }) ∧
    (4 ≤ g → g < bumpFee g) ∧
    ((send_signed_transaction env base tx).2.2 =
      match applyFeePolicy env { tx with nonce := some base } with
      | Except.error e => Except.error e
      | Except.ok txFinal => env.broadcast txFinal) := by
  refine ⟨?_, ?_, ?_, rfl⟩
  · intro h1 h2 h3
    simp [applyFeePolicy, h1, h2, h3]
  · intro h
    simp [applyFeePolicy, h]
  · intro h
    simp only [bumpFee]
    omega

/-- Witness for C3: with base fee 100 a flat transaction is signed with
`gasPrice = 125`, and with cap 2000 a cap-based transaction is signed with
`maxFeePerGas = 2500`. -/
theorem fee_escalation_before_signing_witness :
    txFlat.maxFeePerGas = none ∧ txFlat.maxPriorityFeePerGas = none ∧
    okEnv.gasPriceResult = Except.ok 100 ∧ txCap.maxFeePerGas = some 2000 ∧
    applyFeePolicy okEnv { txFlat with nonce := some 3 } =
      Except.ok { txFlat with nonce := some 3, gasPrice := some (bumpFee 100) } ∧
    applyFeePolicy okEnv { txCap with nonce := some 3 } =
      Except.ok { txCap with nonce := some 3, maxFeePerGas := some (bumpFee 2000) } :=
  ⟨rfl, rfl, rfl, rfl,
    (fee_escalation_before_signing okEnv 3 100 2000 txFlat).1 rfl rfl rfl,
    (fee_escalation_before_signing okEnv 3 100 2000 txCap).2.1 rfl⟩

/-- One bid record as returned by `get_bid_info(service_id, i)`:
`(provider_addr, bid_price, bid_index, location)`. -/
structure Bid where
  providerAddr : String
  price : Nat
  bidIndex : Nat
  location : String
deriving Repr, DecidableEq

/-- The loop body state of `show_bids_and_pick_best` (demo.py lines 46-66):
`acc = some (best_bid_index, lowest_price)` once a bid was seen, `none`
before.  A bid replaces the current best only when its price is strictly
lower (`bid_price < lowest_price`). -/
def pickBestLoop (acc : Option (Nat × Nat)) : List Bid → Option (Nat × Nat)
  | [] => acc
  | b :: bs =>
    let acc2 := match acc with
      | none => some (b.bidIndex, b.price)
      | some (bi, lp) =>
        if b.price < lp then some (b.bidIndex, b.price) else some (bi, lp)
    pickBestLoop acc2 bs

/-- Embedding of `show_bids_and_pick_best` (demo.py lines 46-66): iterate over the bids
read by index `0..received_bids-1` and return
`(best_bid_index, chosen_price)` (`none` models the Python `(None, None)`
returned for zero bids). -/
def show_bids_and_pick_best (bids : List Bid) : Option (Nat × Nat) :=
  pickBestLoop none bids

theorem pickBestLoop_spec (bs : List Bid) (cur : Nat × Nat) :
    (pickBestLoop (some cur) bs = some cur ∧
      ∀ j c, bs.get? j = some c → cur.2 ≤ c.price) ∨
    (∃ i b, bs.get? i = some b ∧
      pickBestLoop (some cur) bs = some (b.bidIndex, b.price) ∧
      b.price < cur.2 ∧
      (∀ j c, bs.get? j = some c → b.price ≤ c.price) ∧
      (∀ j c, j < i → bs.get? j = some c → b.price < c.price)) := by
  induction bs generalizing cur with
  | nil =>
    left
    exact ⟨rfl, fun j c hj => by simp [List.get?] at hj⟩
  | cons b bs ih =>
    by_cases hlt : b.price < cur.2
    · have hstep : pickBestLoop (some cur) (b :: bs) =
          pickBestLoop (some (b.bidIndex, b.price)) bs := by
        simp [pickBestLoop, hlt]
      rcases ih (b.bidIndex, b.price) with ⟨heq, hall⟩ | ⟨i, b', hget, heq, hlt', hle, hfirst⟩
      · right
        refine ⟨0, b, rfl, by rw [hstep, heq], hlt, ?_, fun j c hj hc => by omega⟩
        intro j c hj
        cases j with
        | zero => cases hj; exact le_refl _
        | succ j => exact hall j c hj
      · right
        refine ⟨i + 1, b', hget, by rw [hstep, heq], lt_trans hlt' hlt, ?_, ?_⟩
        · intro j c hj
          cases j with
          | zero => cases hj; exact le_of_lt hlt'
          | succ j => exact hle j c hj
        · intro j c hj hc
          cases j with
          | zero => cases hc; exact hlt'
          | succ j => exact hfirst j c (by omega) hc
    · have hstep : pickBestLoop (some cur) (b :: bs) =
          pickBestLoop (some cur) bs := by
        simp [pickBestLoop, hlt]
      rcases ih cur with ⟨heq, hall⟩ | ⟨i, b', hget, heq, hlt', hle, hfirst⟩
      · left
        refine ⟨by rw [hstep, heq], ?_⟩
        intro j c hj
        cases j with
        | zero => cases hj; omega
        | succ j => exact hall j c hj
      · right
        refine ⟨i + 1, b', hget, by rw [hstep, heq], hlt', ?_, ?_⟩
        · intro j c hj
          cases j with
          | zero => cases hj; omega
          | succ j => exact hle j c hj
        · intro j c hj hc
          cases j with
          | zero => cases hc; omega
          | succ j => exact hfirst j c (by omega) hc

/-- The three bids of the spec's worked example:
`[(idx=0,price=50), (idx=1,price=30), (idx=2,price=30)]`. -/
def exampleBids : List Bid :=
  [{ providerAddr := "0xA", price := 50, bidIndex := 0, location := "Madrid" },
   { providerAddr := "0xB", price := 30, bidIndex := 1, location := "Paris" },
   { providerAddr := "0xC", price := 30, bidIndex := 2, location := "Berlin" }]

/-- C2: on a non-empty bid list, `show_bids_and_pick_best` returns the
`bid_index` (and price) of some bid whose price is a minimum of all prices
and which strictly undercuts every earlier bid — so on ties the
first-encountered (lowest read index) bid wins; in particular on the example
`[(0,50),(1,30),(2,30)]` it returns index 1 with price 30. -/
theorem lowest_bid_first_tie_wins (bids : List Bid) (h : bids ≠ []) :
    (∃ i b, bids.get? i = some b ∧
      show_bids_and_pick_best bids = some (b.bidIndex, b.price) ∧
      (∀ j c, bids.get? j = some c → b.price ≤ c.price) ∧
      (∀ j c, j < i → bids.get? j = some c → b.price < c.price)) ∧
    show_bids_and_pick_best exampleBids = some (1, 30) := by
  refine ⟨?_, by decide⟩
  match bids, h with
  | b :: bs, _ =>
    have hstart : show_bids_and_pick_best (b :: bs) =
        pickBestLoop (some (b.bidIndex, b.price)) bs := by
      simp [show_bids_and_pick_best, pickBestLoop]
    rcases pickBestLoop_spec bs (b.bidIndex, b.price) with
      ⟨heq, hall⟩ | ⟨i, b', hget, heq, hlt', hle, hfirst⟩
    · refine ⟨0, b, rfl, by rw [hstart, heq], ?_, fun j c hj hc => by omega⟩
      intro j c hj
      cases j with
      | zero => cases hj; exact le_refl _
      | succ j => exact hall j c hj
    · refine ⟨i + 1, b', hget, by rw [hstart, heq], ?_, ?_⟩
      · intro j c hj
        cases j with
        | zero => cases hj; exact le_of_lt hlt'
        | succ j => exact hle j c hj
      · intro j c hj hc
        cases j with
        | zero => cases hc; exact hlt'
        | succ j => exact hfirst j c (by omega) hc

/-- Witness for C2: instantiated at the example bid list, the selection
satisfies the first-minimum property. -/
theorem lowest_bid_first_tie_wins_witness :
    exampleBids ≠ [] ∧
    (∃ i b, exampleBids.get? i = some b ∧
      show_bids_and_pick_best exampleBids = some (b.bidIndex, b.price) ∧
      (∀ j c, exampleBids.get? j = some c → b.price ≤ c.price) ∧
      (∀ j c, j < i → exampleBids.get? j = some c → b.price < c.price)) :=
  ⟨by decide, (lowest_bid_first_tie_wins exampleBids (by decide)).1⟩

/-- One emitted log line: `logger.info` or `logger.error` with its message. -/
inductive LogLine
  | info (msg : String)
  | error (msg : String)
deriving Repr, DecidableEq

/-- The state-name list of `display_service_state`. -/
def serviceStates : List String := ["Open", "Closed", "Deployed"]

/-- Python list indexing `l[i]` for a non-negative index: the element when in
range, an `IndexError` exception otherwise. -/
def pyListIndex (l : List String) (i : Nat) : Except String String :=
  match l.get? i with
  | some s => Except.ok s
  | none => Except.error "IndexError: list index out of range"

/-- Embedding of `display_service_state` (blockchain_interface.py lines 377-383) on the
state value returned by `getServiceState` (a non-negative contract enum, so
the Python guard `0 <= state` is always met): in range it logs the state
name at info level; out of range the `logger.error` call itself evaluates
`states[state]` and so raises `IndexError`. -/
def display_service_state (state : Nat) : Except String LogLine :=
  if state < serviceStates.length then
    match pyListIndex serviceStates state with
    | Except.ok s => Except.ok (LogLine.info s)
    | Except.error e => Except.error e
  else
    match pyListIndex serviceStates state with
    | Except.ok s => Except.ok (LogLine.error s)
    | Except.error e => Except.error e

/-- C10: for every state value ≥ 3 (e.g. Cancelled) `display_service_state`
raises an uncaught `IndexError`, because its out-of-range branch itself
indexes the three-element state-name list with the invalid value; for the
values 0, 1, 2 it logs safely. -/
theorem display_service_state_index_error (state : Nat) :
    (3 ≤ state →
      display_service_state state = Except.error "IndexError: list index out of range") ∧
    (state < 3 → ∃ s, display_service_state state = Except.ok (LogLine.info s)) := by
  constructor
  · intro h
    have hnone : serviceStates.get? state = none := by
      apply List.get?_eq_none.mpr
      simp only [serviceStates, List.length_cons, List.length_nil]
      omega
    rw [List.get?_eq_getElem?] at hnone
    have hlen : ¬ state < serviceStates.length := by
      simp only [serviceStates, List.length_cons, List.length_nil]
      omega
    simp [display_service_state, pyListIndex, hnone, hlen]
  · intro h
    interval_cases state
    · exact ⟨"Open", rfl⟩
    · exact ⟨"Closed", rfl⟩
    · exact ⟨"Deployed", rfl⟩

/-- Witness for C10: state 3 (Cancelled) raises IndexError while state 2
logs "Deployed". -/
theorem display_service_state_index_error_witness :
    (3 ≤ 3 ∧
      display_service_state 3 = Except.error "IndexError: list index out of range") ∧
    (2 < 3 ∧ ∃ s, display_service_state 2 = Except.ok (LogLine.info s)) :=
  ⟨⟨by decide, (display_service_state_index_error 3).1 (by decide)⟩,
   ⟨by decide, (display_service_state_index_error 2).2 (by decide)⟩⟩

/-- The mining environment seen by one blocking wait: whether (and after how
many seconds) the transaction gets mined, and the receipt status once it is. -/
structure ReceiptEnv where
  minedAfter : Option Nat
  status : Nat

/-- Embedding of web3 `wait_for_transaction_receipt(tx_hash, timeout=120)`: polls until
the transaction is mined, raising a timeout error when the deadline passes
first. -/
def wait_for_transaction_receipt (env : ReceiptEnv) (timeout : Nat) : Except String Nat :=
  match env.minedAfter with
  | none => Except.error "Timeout"
  | some t => if t ≤ timeout then Except.ok env.status else Except.error "Timeout"

/-- The timeout web3 applies when the caller passes none, as
`register_domain` / `unregister_domain` do. -/
def WEB3_RECEIPT_DEFAULT_TIMEOUT : Nat := 120

/-- Embedding of `register_domain` (blockchain_interface.py lines 166-185); the same
shape embeds `unregister_domain`.  `sendResult` is the outcome of
`send_signed_transaction` on the built `addOperator` transaction.  The
declared `timeout` parameter is accepted but never forwarded: the source
calls `self.web3.eth.wait_for_transaction_receipt(tx_hash)` with no timeout
argument, so web3's 120 s default applies. -/
def register_domain (sendResult : Except String String) (env : ReceiptEnv)
    (wait : Bool) (timeout : Nat) : Except String String :=
  match sendResult with
  | Except.error e => Except.error ("Failed to register domain: " ++ e)
  | Except.ok txHash =>
    if wait then
      match wait_for_transaction_receipt env WEB3_RECEIPT_DEFAULT_TIMEOUT with
      | Except.error e => Except.error ("Failed to register domain: " ++ e)
      | Except.ok status =>
        if status ≠ 1 then
          Except.error "Failed to register domain: mined but failed (status=0)"
        else Except.ok txHash
    else Except.ok txHash

/-- C6 evidence theorem for the claim on blocking waits: with
`wait = true`, a transaction mined after 50 s with success status returns
the transaction id even though the caller passed `timeout = 5` (the
caller-supplied timeout is ignored; web3's 120 s default governs); a
transaction not mined within that default window raises a timeout error,
and a mined-but-reverted receipt raises an error.  The first conjunct is
the failing input for the claim as stated: 50 > 5, yet no Timeout is
raised. -/
theorem register_domain_ignores_caller_timeout :
    register_domain (Except.ok "0xabc") { minedAfter := some 50, status := 1 } true 5 =
      Except.ok "0xabc" ∧
    ¬ (50 ≤ 5) ∧
    register_domain (Except.ok "0xabc") { minedAfter := none, status := 1 } true 5 =
      Except.error "Failed to register domain: Timeout" ∧
    register_domain (Except.ok "0xabc") { minedAfter := some 50, status := 0 } true 5 =
      Except.error "Failed to register domain: mined but failed (status=0)" := by
  refine ⟨rfl, by decide, rfl, rfl⟩

/-- Outcome of the provider's winner check. -/
inductive ProviderOutcome
  | winnerPath
  | notWinnerReturned
deriving Repr, DecidableEq

/-- The winner-check of `run_provider_federation_demo` (demo.py lines
324-438): `is_winner` is consulted exactly once; on `False` the function
returns the non-winner message unconditionally (the CSV export happens
before the return but does not guard it).  Result: (number of `is_winner`
consultations, outcome). -/
def demo_winner_check (isWinner : Bool) : Nat × ProviderOutcome :=
  (1, if isWinner then ProviderOutcome.winnerPath else ProviderOutcome.notWinnerReturned)

/-- The winner-check loop of `simulate_provider_federation_process`
(main.py lines 835-852): `while am_i_winner == False:` re-calls
`check_winner`; on `True` it breaks into the winner path; on `False` it
logs, appends a CSV row, and returns ONLY inside `if request.export_to_csv:`
— with CSV export disabled the loop repeats.  `k` is the consultation
counter, `fuel` bounds the modelled iterations; result: (number of
`check_winner` consultations, outcome, `none` = still looping when fuel
runs out). -/
def check_winner_loop (isWinner : Nat → Bool) (exportCsv : Bool) :
    Nat → Nat → Nat × Option ProviderOutcome
  | _, 0 => (0, none)
  | k, fuel + 1 =>
    if isWinner k then (1, some ProviderOutcome.winnerPath)
    else if exportCsv then (1, some ProviderOutcome.notWinnerReturned)
    else
      let rest := check_winner_loop isWinner exportCsv (k + 1) fuel
      (rest.1 + 1, rest.2)

theorem check_winner_loop_never_false (k fuel : Nat) :
    check_winner_loop (fun _ => false) false k fuel = (fuel, none) := by
  induction fuel generalizing k with
  | zero => rfl
  | succ fuel ih => simp [check_winner_loop, ih]

/-- C7 evidence theorem: in `simulate_provider_federation_process`, when the
provider is not the winner and `export_to_csv` is false, the loop consults
`check_winner` once per iteration and never terminates (`fuel`
consultations after `fuel` iterations, no outcome) — it does not consult
the winner status once and return as the claim states; with
`export_to_csv = true`, and in `run_provider_federation_demo`
unconditionally, the status is read exactly once and the non-winner result
is returned. -/
theorem provider_winner_check_retries (fuel : Nat) :
    check_winner_loop (fun _ => false) false 0 fuel = (fuel, none) ∧
    check_winner_loop (fun _ => false) true 0 (fuel + 1) =
      (1, some ProviderOutcome.notWinnerReturned) ∧
    demo_winner_check false = (1, ProviderOutcome.notWinnerReturned) := by
  refine ⟨check_winner_loop_never_false 0 fuel, ?_, rfl⟩
  simp [check_winner_loop]

/-- One step of the wait-for-endpoint phases: a poll of the role-qualified
"is endpoint set" flag with its result, or the `get_service_info` read. -/
inductive EndpointAction
  | pollEndpointFlag (result : Bool)
  | readServiceInfo
deriving Repr, DecidableEq

/-- The `while not flag(): sleep(0.1)` loop followed by
`get_service_info` (demo.py lines 124-127 and 328-331), as the trace of
actions it performs: the flag oracle is indexed by the poll count, `fuel`
bounds the modelled iterations (the source loop has no bound). -/
def wait_flag_then_read (flag : Nat → Bool) : Nat → Nat → List EndpointAction
  | _, 0 => []
  | k, fuel + 1 =>
    if flag k then
      [EndpointAction.pollEndpointFlag true, EndpointAction.readServiceInfo]
    else
      EndpointAction.pollEndpointFlag false :: wait_flag_then_read flag (k + 1) fuel

/-- The two role-qualified endpoint flags as ledger oracles (indexed by poll
count). -/
structure EndpointFlags where
  isProviderEndpointSet : Nat → Bool
  isConsumerEndpointSet : Nat → Bool

/-- Consumer retrieve phase (demo.py lines 124-126): poll
`is_provider_endpoint_set` until true, then `get_service_info`. -/
def consumer_retrieve_trace (o : EndpointFlags) (fuel : Nat) : List EndpointAction :=
  wait_flag_then_read o.isProviderEndpointSet 0 fuel

/-- Winning provider retrieve phase (demo.py lines 328-330): poll
`is_consumer_endpoint_set` until true, then `get_service_info`. -/
def provider_retrieve_trace (o : EndpointFlags) (fuel : Nat) : List EndpointAction :=
  wait_flag_then_read o.isConsumerEndpointSet 0 fuel

theorem wait_flag_then_read_ordered (flag : Nat → Bool) (k fuel i : Nat)
    (h : (wait_flag_then_read flag k fuel).get? i = some EndpointAction.readServiceInfo) :
    ∃ j, j < i ∧
      (wait_flag_then_read flag k fuel).get? j =
        some (EndpointAction.pollEndpointFlag true) := by
  induction fuel generalizing k i with
  | zero => simp [wait_flag_then_read, List.get?] at h
  | succ fuel ih =>
    by_cases hf : flag k
    · simp only [wait_flag_then_read, hf, if_true] at h ⊢
      match i, h with
      | 1, _ => exact ⟨0, by omega, rfl⟩
    · simp only [wait_flag_then_read, hf, if_false] at h ⊢
      match i, h with
      | Nat.succ i, h =>
        obtain ⟨j, hj, hjget⟩ := ih (k + 1) i h
        exact ⟨j + 1, by omega, hjget⟩

/-- C5: in both roles, every `get_service_info` read in the execution trace
is preceded by a poll of the corresponding role-qualified endpoint flag that
returned true — the consumer polls `is_provider_endpoint_set`, the winning
provider polls `is_consumer_endpoint_set`, and neither reads before its
flag-poll returns true. -/
theorem endpoint_flag_before_read (o : EndpointFlags) (fuel i : Nat) :
    ((consumer_retrieve_trace o fuel).get? i = some EndpointAction.readServiceInfo →
      ∃ j, j < i ∧
        (consumer_retrieve_trace o fuel).get? j =
          some (EndpointAction.pollEndpointFlag true)) ∧
    ((provider_retrieve_trace o fuel).get? i = some EndpointAction.readServiceInfo →
      ∃ j, j < i ∧
        (provider_retrieve_trace o fuel).get? j =
          some (EndpointAction.pollEndpointFlag true)) :=
  ⟨wait_flag_then_read_ordered o.isProviderEndpointSet 0 fuel i,
   wait_flag_then_read_ordered o.isConsumerEndpointSet 0 fuel i⟩

/-- Flags that are false on the first poll and true from the second poll on. -/
def flagsSetAtOne : EndpointFlags :=
  { isProviderEndpointSet := fun k => decide (1 ≤ k),
    isConsumerEndpointSet := fun k => decide (1 ≤ k) }

/-- Witness for C5: with flags turning true on the second poll and fuel 3,
the read appears at position 2 of both traces and a poll returning true
stands at position 1 < 2. -/
theorem endpoint_flag_before_read_witness :
    (consumer_retrieve_trace flagsSetAtOne 3).get? 2 =
      some EndpointAction.readServiceInfo ∧
    (provider_retrieve_trace flagsSetAtOne 3).get? 2 =
      some EndpointAction.readServiceInfo ∧
    (∃ j, j < 2 ∧
      (consumer_retrieve_trace flagsSetAtOne 3).get? j =
        some (EndpointAction.pollEndpointFlag true)) ∧
    (∃ j, j < 2 ∧
      (provider_retrieve_trace flagsSetAtOne 3).get? j =
        some (EndpointAction.pollEndpointFlag true)) :=
  ⟨by decide, by decide,
   (endpoint_flag_before_read flagsSetAtOne 3 2).1 (by decide),
   (endpoint_flag_before_read flagsSetAtOne 3 2).2 (by decide)⟩

/-- A `ServiceAnnouncement` event as processed by the provider watch loop:
the decoded service identifier and description, and the value
`get_service_state` returns for it at processing time. -/
structure AnnEvent where
  serviceId : String
  description : String
  state : Nat
deriving Repr, DecidableEq

/-- Embedding of `map_desc_to_simple` (demo.py lines 210-215): `SIMPLE_MAP.get(desc, "")`
over `{"detnet_transport": "service1", "ros_app_k8s_deployment": "service2"}`. -/
def map_desc_to_simple (d : String) : String :=
  if d = "detnet_transport" then "service1"
  else if d = "ros_app_k8s_deployment" then "service2"
  else ""

/-- The watch-loop state of `run_provider_federation_demo` (demo.py lines
246-299): the candidate list `open_services`, the dedup sets
`seen_open_ids` and `seen_other` (the latter stores SIMPLIFIED names), and
the descriptions for which the "cannot fulfill" message was logged. -/
structure WatchState where
  openServices : List (String × String)
  seenOpenIds : List String
  seenOther : List String
  cannotFulfillLogs : List String
deriving Repr, DecidableEq

def initWatchState : WatchState :=
  { openServices := [], seenOpenIds := [], seenOther := [], cannotFulfillLogs := [] }

/-- The guard `description_filter is None or description == description_filter`. -/
def matchesFilter (filter : Option String) (desc : String) : Bool :=
  match filter with
  | none => true
  | some f => desc = f

/-- The per-event body of the watch loop (demo.py lines 259-289): skip
non-open services; collect a matching service once per service id; log a
non-matching announcement once per SIMPLIFIED description. -/
def process_announcement (filter : Option String) (st : WatchState) (ev : AnnEvent) :
    WatchState :=
  let simplified := map_desc_to_simple ev.description
  if ev.state ≠ 0 then st
  else if matchesFilter filter ev.description then
    if ev.serviceId ∈ st.seenOpenIds then st
    else { st with
      openServices := st.openServices ++ [(ev.serviceId, simplified)],
      seenOpenIds := ev.serviceId :: st.seenOpenIds }
  else if simplified ∈ st.seenOther then st
  else { st with
    cannotFulfillLogs := st.cannotFulfillLogs ++ [ev.description],
    seenOther := simplified :: st.seenOther }

/-- The watch loop over the concatenation of all entries returned by
`get_all_entries` across any number of poll ticks (a later tick re-yields
the earlier entries, so repeats occur in `events`). -/
def watch_announcements (filter : Option String) (events : List AnnEvent) : WatchState :=
  events.foldl (process_announcement filter) initWatchState

/-- Invariant tying the dedup sets to the collected/logged multiplicities. -/
def WatchInv (st : WatchState) : Prop :=
  (∀ id, (st.openServices.map Prod.fst).count id ≤ 1) ∧
  (∀ id, id ∉ st.seenOpenIds → (st.openServices.map Prod.fst).count id = 0) ∧
  (∀ d, st.cannotFulfillLogs.count d ≤ 1) ∧
  (∀ d, map_desc_to_simple d ∉ st.seenOther → st.cannotFulfillLogs.count d = 0)

theorem watchInv_init : WatchInv initWatchState := by
  refine ⟨fun id => ?_, fun id _ => ?_, fun d => ?_, fun d _ => ?_⟩ <;>
    simp [initWatchState]

theorem process_announcement_skip (filter : Option String) (st : WatchState)
    (ev : AnnEvent) (h : ev.state ≠ 0) :
    process_announcement filter st ev = st := by
  simp [process_announcement, h]

theorem process_announcement_collect (filter : Option String) (st : WatchState)
    (ev : AnnEvent) (h0 : ev.state = 0)
    (hm : matchesFilter filter ev.description = true)
    (hseen : ev.serviceId ∉ st.seenOpenIds) :
    process_announcement filter st ev =
      { st with
        openServices := st.openServices ++ [(ev.serviceId, map_desc_to_simple ev.description)],
        seenOpenIds := ev.serviceId :: st.seenOpenIds } := by
  simp [process_announcement, h0, hm, hseen]

theorem process_announcement_collected_before (filter : Option String) (st : WatchState)
    (ev : AnnEvent) (h0 : ev.state = 0)
    (hm : matchesFilter filter ev.description = true)
    (hseen : ev.serviceId ∈ st.seenOpenIds) :
    process_announcement filter st ev = st := by
  simp [process_announcement, h0, hm, hseen]

theorem process_announcement_log (filter : Option String) (st : WatchState)
    (ev : AnnEvent) (h0 : ev.state = 0)
    (hm : matchesFilter filter ev.description = false)
    (hoth : map_desc_to_simple ev.description ∉ st.seenOther) :
    process_announcement filter st ev =
      { st with
        cannotFulfillLogs := st.cannotFulfillLogs ++ [ev.description],
        seenOther := map_desc_to_simple ev.description :: st.seenOther } := by
  simp [process_announcement, h0, hm, hoth]

theorem process_announcement_logged_before (filter : Option String) (st : WatchState)
    (ev : AnnEvent) (h0 : ev.state = 0)
    (hm : matchesFilter filter ev.description = false)
    (hoth : map_desc_to_simple ev.description ∈ st.seenOther) :
    process_announcement filter st ev = st := by
  simp [process_announcement, h0, hm, hoth]

theorem watchInv_step (filter : Option String) (st : WatchState) (ev : AnnEvent)
    (h : WatchInv st) : WatchInv (process_announcement filter st ev) := by
  obtain ⟨h1, h2, h3, h4⟩ := h
  by_cases hs : ev.state = 0
  · by_cases hm : matchesFilter filter ev.description = true
    · by_cases hseen : ev.serviceId ∈ st.seenOpenIds
      · rw [process_announcement_collected_before filter st ev hs hm hseen]
        exact ⟨h1, h2, h3, h4⟩
      · rw [process_announcement_collect filter st ev hs hm hseen]
        refine ⟨fun sid => ?_, fun sid hsid => ?_, h3, h4⟩
        · simp only [List.map_append, List.count_append, List.map_cons, List.map_nil]
          by_cases hide : sid = ev.serviceId
          · have hz : (st.openServices.map Prod.fst).count sid = 0 := by
              rw [hide]; exact h2 ev.serviceId hseen
            have hone : ([ev.serviceId] : List String).count sid ≤ 1 :=
              le_trans (List.count_le_length sid [ev.serviceId]) (by simp)
            omega
          · have hz : ([ev.serviceId] : List String).count sid = 0 :=
              List.count_eq_zero.mpr (by simp [hide])
            have := h1 sid
            omega
        · simp only [List.mem_cons, not_or] at hsid
          obtain ⟨hne, hnot⟩ := hsid
          simp only [List.map_append, List.count_append, List.map_cons, List.map_nil]
          have hz : ([ev.serviceId] : List String).count sid = 0 :=
            List.count_eq_zero.mpr (by simp [hne])
          have := h2 sid hnot
          omega
    · have hmf : matchesFilter filter ev.description = false := by
        revert hm; cases matchesFilter filter ev.description <;> simp
      by_cases hoth : map_desc_to_simple ev.description ∈ st.seenOther
      · rw [process_announcement_logged_before filter st ev hs hmf hoth]
        exact ⟨h1, h2, h3, h4⟩
      · rw [process_announcement_log filter st ev hs hmf hoth]
        refine ⟨h1, h2, fun d => ?_, fun d hd => ?_⟩
        · simp only [List.count_append]
          by_cases hde : d = ev.description
          · have hz : st.cannotFulfillLogs.count d = 0 := by
              apply h4 d
              rw [hde]; exact hoth
            have hone : ([ev.description] : List String).count d ≤ 1 :=
              le_trans (List.count_le_length d [ev.description]) (by simp)
            omega
          · have hz : ([ev.description] : List String).count d = 0 :=
              List.count_eq_zero.mpr (by simp [hde])
            have := h3 d
            omega
        · simp only [List.mem_cons, not_or] at hd
          obtain ⟨hne, hnot⟩ := hd
          simp only [List.count_append]
          have hdne : d ≠ ev.description := fun hc => hne (by rw [hc])
          have hz : ([ev.description] : List String).count d = 0 :=
            List.count_eq_zero.mpr (by simp [hdne])
          have := h4 d hnot
          omega
  · rw [process_announcement_skip filter st ev hs]
    exact ⟨h1, h2, h3, h4⟩

theorem watchInv_run (filter : Option String) (events : List AnnEvent) :
    WatchInv (watch_announcements filter events) := by
  unfold watch_announcements
  generalize hst : initWatchState = st0
  have h0 : WatchInv st0 := hst ▸ watchInv_init
  clear hst
  induction events generalizing st0 with
  | nil => exact h0
  | cons ev rest ih =>
    exact ih _ (watchInv_step filter st0 ev h0)

/-- Two announcement events whose descriptions both fail the configured
filter and are both absent from `SIMPLE_MAP`, so they simplify to the same
empty string. -/
def cexEvents : List AnnEvent :=
  [{ serviceId := "svcA", description := "video_streaming", state := 0 },
   { serviceId := "svcB", description := "storage_backup", state := 0 }]

/-- C4 counterexample: the claim promises exactly one "cannot fulfill" log
entry per distinct non-matching description, but the dedup set stores the
SIMPLIFIED name (`SIMPLE_MAP.get(desc, "")`), so two distinct unmapped
descriptions collide on `""`: with filter "detnet_transport", the open
announcements "video_streaming" (svcA) and "storage_backup" (svcB) yield a
log for the first and ZERO log entries for the second distinct
description. -/
theorem cannot_fulfill_not_per_description :
    (watch_announcements (some "detnet_transport") cexEvents).cannotFulfillLogs.count
      "storage_backup" = 0 ∧
    (watch_announcements (some "detnet_transport") cexEvents).cannotFulfillLogs.count
      "video_streaming" = 1 ∧
    matchesFilter (some "detnet_transport") "storage_backup" = false ∧
    cexEvents.get? 1 =
      some { serviceId := "svcB", description := "storage_backup", state := 0 } := by
  refine ⟨by decide, by decide, by decide, by decide⟩

/-- The spec example observed on two poll ticks: `get_all_entries` re-yields
both entries on the second tick. -/
def exAnnEvents : List AnnEvent :=
  [{ serviceId := "svcD", description := "detnet_transport", state := 0 },
   { serviceId := "svcR", description := "ros_app_k8s_deployment", state := 0 },
   { serviceId := "svcD", description := "detnet_transport", state := 0 },
   { serviceId := "svcR", description := "ros_app_k8s_deployment", state := 0 }]

/-- C4 amended: across any number of poll ticks, a filter-matching open
service identifier is appended to the candidate list at most once, and a
non-matching announcement is logged at most once per distinct description
(exactly once per distinct SIMPLIFIED description — distinct unmapped
descriptions share the empty simplified name and hence one combined log
entry, per the counterexample); in the spec example with filter
"detnet_transport" only `svcD` is ever collected and
"ros_app_k8s_deployment" is logged exactly once over two ticks. -/
theorem announcement_dedup (filter : Option String) (events : List AnnEvent) :
    (∀ id, ((watch_announcements filter events).openServices.map Prod.fst).count id ≤ 1) ∧
    (∀ d, (watch_announcements filter events).cannotFulfillLogs.count d ≤ 1) ∧
    (watch_announcements (some "detnet_transport") exAnnEvents).openServices =
      [("svcD", "service1")] ∧
    (watch_announcements (some "detnet_transport") exAnnEvents).cannotFulfillLogs =
      ["ros_app_k8s_deployment"] := by
  obtain ⟨h1, _, h3, _⟩ := watchInv_run filter events
  exact ⟨h1, h3, by decide, by decide⟩

/-- A decoded ledger event as seen by a subscription's filter: block number
and transaction id (argument decoding is orthogonal to the replay claim). -/
structure NEvent where
  blockNumber : Nat
  txId : String
deriving Repr, DecidableEq

/-- A subscription's filter handle: the starting block fixed at creation
and a cursor over the entries already drained. -/
structure NotifFilter where
  fromBlock : Nat
  cursor : Nat
deriving Repr, DecidableEq

/-- Modelled from the spec: the `create(eventKind, callbackTarget, lookback)`
operation of the SubscriptionRegistry (spec 4.5) and `createFilter`
(spec 4.2) — absent from src/, where only the `SubscriptionRequest`
model with its `last_n_blocks` field remains (models.py lines 1-11).  The
filter's starting point is `max(0, latestBlock - lookback)` (`Nat`
subtraction), and replay happens only here, once, by choosing that
starting point; the cursor starts at zero. -/
def create_subscription_filter (latestBlock lookback : Nat) : NotifFilter :=
  { fromBlock := latestBlock - lookback, cursor := 0 }

/-- Modelled from the spec: the entries of the stream a filter observes —
those at or after its starting block, in stream order. -/
def filterEntries (stream : List NEvent) (fromBlock : Nat) : List NEvent :=
  stream.filter (fun e => decide (fromBlock ≤ e.blockNumber))

/-- Modelled from the spec: one NotifierLoop tick for one subscription
(spec 4.5) — drain newly observed entries via `pollNewEntries` up to the
bounded count `cap`, advancing the cursor past what was delivered. -/
def pollNewEntries (stream : List NEvent) (cap : Nat) (f : NotifFilter) :
    List NEvent × NotifFilter :=
  let delivered := ((filterEntries stream f.fromBlock).drop f.cursor).take cap
  (delivered, { f with cursor := f.cursor + delivered.length })

/-- C8: a subscription created with a lookback replay window, run against a
stream whose qualifying historic events fit in the per-tick bound, delivers
exactly those historic events on the first notifier tick, and the next tick
over an unchanged stream delivers zero duplicates; every qualifying observed
entry is in the first delivery (at-least-once), and replay happened only at
creation (the cursor advanced past all of them). -/
theorem subscription_replay_once (stream : List NEvent) (latest lookback cap : Nat)
    (hcap : (filterEntries stream (latest - lookback)).length ≤ cap) :
    (pollNewEntries stream cap (create_subscription_filter latest lookback)).1 =
      filterEntries stream (latest - lookback) ∧
    (pollNewEntries stream cap
      (pollNewEntries stream cap (create_subscription_filter latest lookback)).2).1 = [] ∧
    (∀ e, e ∈ stream → latest - lookback ≤ e.blockNumber →
      e ∈ (pollNewEntries stream cap (create_subscription_filter latest lookback)).1) := by
  have hfirst :
      (pollNewEntries stream cap (create_subscription_filter latest lookback)).1 =
        filterEntries stream (latest - lookback) := by
    simp only [pollNewEntries, create_subscription_filter, List.drop_zero]
    exact List.take_of_length_le hcap
  refine ⟨hfirst, ?_, ?_⟩
  · simp only [pollNewEntries, create_subscription_filter, List.drop_zero]
    rw [List.take_of_length_le hcap]
    simp [List.drop_eq_nil_of_le]
  · intro e he hblock
    rw [hfirst]
    simp only [filterEntries, List.mem_filter, decide_eq_true_eq]
    exact ⟨he, hblock⟩

/-- The spec example stream: five qualifying events inside the 20-block
window of a subscription created at latest block 100, plus one stale event
from before the window. -/
def exampleStream : List NEvent :=
  [{ blockNumber := 60, txId := "0x0" },
   { blockNumber := 81, txId := "0x1" },
   { blockNumber := 85, txId := "0x2" },
   { blockNumber := 90, txId := "0x3" },
   { blockNumber := 95, txId := "0x4" },
   { blockNumber := 100, txId := "0x5" }]

/-- Witness for C8: with `lookback = 20` at latest block 100 and a per-tick
bound of 10, the first tick delivers exactly the five in-window events and
the second tick delivers nothing. -/
theorem subscription_replay_once_witness :
    (filterEntries exampleStream (100 - 20)).length ≤ 10 ∧
    (pollNewEntries exampleStream 10 (create_subscription_filter 100 20)).1 =
      [{ blockNumber := 81, txId := "0x1" },
       { blockNumber := 85, txId := "0x2" },
       { blockNumber := 90, txId := "0x3" },
       { blockNumber := 95, txId := "0x4" },
       { blockNumber := 100, txId := "0x5" }] ∧
    (pollNewEntries exampleStream 10
      (pollNewEntries exampleStream 10 (create_subscription_filter 100 20)).2).1 = [] := by
  refine ⟨by decide, ?_, (subscription_replay_once exampleStream 100 20 10 (by decide)).2.1⟩
  rw [(subscription_replay_once exampleStream 100 20 10 (by decide)).1]
  decide
